import Mathlib

/-!
Verification of the authentication routes of an httpbin-style HTTP service
(`src/routes/authentication.ts`), written in TypeScript on the Hono framework.

JavaScript strings are modelled as `List Char`; the route handlers become pure
functions from their request context (route parameters, the `authorization`
header, the freshly generated nonce, the request method and URI) to a response
value.  The cryptographic hash primitives (`crypto.subtle.digest` behind
`calculateDigest` / `md5Hash`) are not re-implemented; instead every function
that hashes takes the hash as an explicit argument
`hash : List Char → List Char → List Char` (algorithm name, data) and all
theorems quantify over it, so they hold in particular for the real digests.
-/

namespace HttpbinAuth

/-- Character-list form of a string literal. -/
abbrev Str := List Char

/-- Response body shapes used by the authentication routes: an empty body,
a plain-text body, the JSON success body carrying a user, or the JSON
success body carrying a bearer token. -/
inductive Body where
  | empty : Body
  | text (s : Str) : Body
  | authUser (user : Str) : Body
  | authToken (token : Str) : Body
deriving DecidableEq, Repr

/-- An HTTP response as produced by the handlers: status code, the optional
WWW-Authenticate header, and the body. -/
structure Resp where
  status : Nat
  wwwAuthenticate : Option Str
  body : Body
deriving DecidableEq, Repr

/-- Response `c.body(null, 401, ...)` with a WWW-Authenticate challenge. -/
def resp401 (challenge : Str) : Resp := ⟨401, some challenge, Body.empty⟩

/-- Response `c.body(msg, 400)`. -/
def resp400 (msg : Str) : Resp := ⟨400, none, Body.text msg⟩

/-- Response `c.json(\x7b authenticated: true, user \x7d)`. -/
def respAuthUser (user : Str) : Resp := ⟨200, none, Body.authUser user⟩

/-- Response `c.json(\x7b authenticated: true, token \x7d)`. -/
def respAuthToken (token : Str) : Resp := ⟨200, none, Body.authToken token⟩

/-! ### The Digest Authorization header parser

`parseDigestAuth` in the source strips the `"Digest "` scheme tag and then
repeatedly applies the JavaScript regular expression
`(\w+)=(?:"([^"]*)"|([^,]*))` with the `g` flag, storing each captured pair
in an object.  The global-regex scan is modelled by the one-character-at-a-time
state machine `scanStep`: it looks for a maximal word-character run followed by
`=`; the value is either a quoted span (when a closing quote exists ahead,
matching the regex's first alternative) or the maximal comma-free span
(the second alternative, which applies as well when the quote is never
closed).  Successive JavaScript object assignments are modelled by
`objUpsert`/`objOfPairs` (later keys overwrite earlier ones). -/

/-- Regex `\w`: ASCII letters, digits and underscore. -/
def isWordChar (c : Char) : Bool :=
  (65 ≤ c.toNat && c.toNat ≤ 90) || (97 ≤ c.toNat && c.toNat ≤ 122) ||
  (48 ≤ c.toNat && c.toNat ≤ 57) || c.toNat == 95

/-- States of the scanner for the pair-matching regular expression. -/
inductive ScanState where
  | skip : ScanState
  | key (k : Str) : ScanState
  | afterEq (k : Str) : ScanState
  | quoted (k acc : Str) : ScanState
  | unquoted (k acc : Str) : ScanState
deriving DecidableEq, Repr

/-- One-pass scanner equivalent to the repeated `regex.exec` loop of the
source: produces the key/value pairs in match order. -/
def scanStep : ScanState → Str → List (Str × Str)
  | .skip, [] => []
  | .skip, c :: t =>
      if isWordChar c then scanStep (.key [c]) t else scanStep .skip t
  | .key _, [] => []
  | .key k, c :: t =>
      if isWordChar c then scanStep (.key (k ++ [c])) t
      else if c = '=' then scanStep (.afterEq k) t
      else scanStep .skip t
  | .afterEq k, [] => [(k, [])]
  | .afterEq k, c :: t =>
      if c = '"' then
        if t.contains '"' then scanStep (.quoted k []) t
        else scanStep (.unquoted k [c]) t
      else if c = ',' then (k, []) :: scanStep .skip t
      else scanStep (.unquoted k [c]) t
  | .quoted _ _, [] => []
  | .quoted k acc, c :: t =>
      if c = '"' then (k, acc) :: scanStep .skip t
      else scanStep (.quoted k (acc ++ [c])) t
  | .unquoted k acc, [] => [(k, acc)]
  | .unquoted k acc, c :: t =>
      if c = ',' then (k, acc) :: scanStep .skip t
      else scanStep (.unquoted k (acc ++ [c])) t

/-- All key/value pairs matched by the global regex over a string. -/
def scanPairs (s : Str) : List (Str × Str) := scanStep ScanState.skip s

/-- JavaScript object assignment `params[key] = value`: replace the binding
if the key exists, otherwise append it. -/
def objUpsert (m : List (Str × Str)) (k v : Str) : List (Str × Str) :=
  match m with
  | [] => [(k, v)]
  | (k2, v2) :: rest =>
      if k2 = k then (k2, v) :: rest else (k2, v2) :: objUpsert rest k v

/-- The object built by assigning the pairs in order. -/
def objOfPairs (ps : List (Str × Str)) : List (Str × Str) :=
  ps.foldl (fun m p => objUpsert m p.1 p.2) []

/-- JavaScript property read `params[key]`: `none` models `undefined`. -/
def objGet (m : List (Str × Str)) (k : Str) : Option Str :=
  match m with
  | [] => none
  | (k2, v) :: rest => if k2 = k then some v else objGet rest k

/-- JavaScript truthiness test `!x` for an optional string property:
true when the property is `undefined` or the empty string. -/
def strFalsy (v : Option Str) : Bool :=
  match v with
  | none => true
  | some s => s.isEmpty

/-- Model of `parseDigestAuth`: `null` (here `none`) when the header does not
start with `"Digest "`; otherwise the object of all regex-matched pairs of
the remainder (possibly empty). -/
def parseDigestAuth (authHeader : Str) : Option (List (Str × Str)) :=
  if authHeader.take 7 = ("Digest ".toList) then
    some (objOfPairs (scanPairs (authHeader.drop 7)))
  else none

/-! ### Challenge builder and digest verification -/

/-- Characters that `generateNonce` can emit: base64 output with `+` replaced
by `-`, `/` replaced by `_`, and `=` removed. -/
def isNonceChar (c : Char) : Bool :=
  (65 ≤ c.toNat && c.toNat ≤ 90) || (97 ≤ c.toNat && c.toNat ≤ 122) ||
  (48 ≤ c.toNat && c.toNat ≤ 57) || c = '-' || c = '_'

/-- Model of `generateDigestChallenge`.  The source draws a fresh nonce from
`generateNonce`; here the nonce is an explicit argument.  `qop` and
`algorithm` are appended only when truthy (non-null and non-empty), `stale`
appends the bare `stale=true`. -/
def generateDigestChallenge (realm nonce : Str) (qop algorithm : Option Str)
    (stale : Bool) : Str :=
  let base := ("Digest realm=\"".toList) ++ realm ++ ("\", nonce=\"".toList) ++
    nonce ++ ("\"".toList)
  let c1 := match qop with
    | some q => if q.isEmpty then base
        else base ++ (", qop=\"".toList) ++ q ++ ("\"".toList)
    | none => base
  let c2 := match algorithm with
    | some a => if a.isEmpty then c1 else c1 ++ (", algorithm=".toList) ++ a
    | none => c1
  if stale then c2 ++ (", stale=true".toList) else c2

/-- The `A2` string of `checkDigestAuth`.  The source computes it as the
conditional expression ``qop ? `${method}:${uri}` : `${method}:${uri}` ``,
whose two branches are identical. -/
def digestA2 (qop : Option Str) (method uri : Str) : Str :=
  if qop.isSome then method ++ (":".toList) ++ uri
  else method ++ (":".toList) ++ uri

/-- JavaScript truthiness of the `qop` argument (string or null). -/
def qopTruthy (qop : Option Str) : Bool :=
  match qop with
  | none => false
  | some q => !q.isEmpty

/-- Model of `checkDigestAuth`.  `hash alg data` stands for the dispatch
`algorithm === "MD5" ? md5Hash(data) : calculateDigest(algorithm, data)`
of the source, which in both branches is a fixed function of the algorithm
name and the data being hashed. -/
def checkDigestAuth (hash : Str → Str → Str) (authParams : List (Str × Str))
    (username password method uri : Str) (qop : Option Str)
    (algorithm : Str) : Bool :=
  if strFalsy (objGet authParams ("username".toList)) ||
     strFalsy (objGet authParams ("realm".toList)) ||
     strFalsy (objGet authParams ("nonce".toList)) then false
  else if objGet authParams ("username".toList) ≠ some username then false
  else
    let realmVal := (objGet authParams ("realm".toList)).getD []
    let nonceVal := (objGet authParams ("nonce".toList)).getD []
    let A1 := username ++ (":".toList) ++ realmVal ++ (":".toList) ++ password
    let HA1 := hash algorithm A1
    let HA2 := hash algorithm (digestA2 qop method uri)
    let response :=
      if qopTruthy qop && !strFalsy (objGet authParams ("nc".toList)) &&
         !strFalsy (objGet authParams ("cnonce".toList)) then
        let KD := HA1 ++ (":".toList) ++ nonceVal ++ (":".toList) ++
          ((objGet authParams ("nc".toList)).getD []) ++ (":".toList) ++
          ((objGet authParams ("cnonce".toList)).getD []) ++ (":".toList) ++
          (qop.getD []) ++ (":".toList) ++ HA2
        hash algorithm KD
      else
        let KD := HA1 ++ (":".toList) ++ nonceVal ++ (":".toList) ++ HA2
        hash algorithm KD
    objGet authParams ("response".toList) = some response

/-! ### Base64: JavaScript `btoa` / `atob`

`atob` follows the WHATWG forgiving-base64 decode: remove ASCII whitespace;
when the length is a multiple of four, strip up to two trailing `=`; fail when
the remaining length is 1 mod 4 or when any character is outside the base64
alphabet; otherwise decode 6-bit groups, discarding leftover bits.  A failed
decode corresponds to the `InvalidCharacterError` that `atob` throws. -/

/-- The base64 alphabet. -/
def b64AlphabetChars : List Char :=
  ("ABCDEFGHIJKLMNOPQRSTUVWXYZabcdefghijklmnopqrstuvwxyz0123456789+/".toList)

/-- The base64 character of a 6-bit value. -/
def b64CharOf (n : Nat) : Char := b64AlphabetChars.getD (n % 64) 'A'

/-- The 6-bit value of a base64 character, `none` outside the alphabet. -/
def b64Val (c : Char) : Option Nat :=
  if 65 ≤ c.toNat ∧ c.toNat ≤ 90 then some (c.toNat - 65)
  else if 97 ≤ c.toNat ∧ c.toNat ≤ 122 then some (c.toNat - 71)
  else if 48 ≤ c.toNat ∧ c.toNat ≤ 57 then some (c.toNat + 4)
  else if c = '+' then some 62
  else if c = '/' then some 63
  else none

/-- ASCII whitespace removed by forgiving-base64 decode. -/
def isB64Ws (c : Char) : Bool :=
  c.toNat == 9 || c.toNat == 10 || c.toNat == 12 || c.toNat == 13 ||
  c.toNat == 32

/-- The 6-bit values encoding a byte list (without padding). -/
def b64Vals : List Nat → List Nat
  | [] => []
  | [b] => [b / 4, b % 4 * 16]
  | [b1, b2] => [b1 / 4, b1 % 4 * 16 + b2 / 16, b2 % 16 * 4]
  | b1 :: b2 :: b3 :: rest =>
      (b1 / 4) :: (b1 % 4 * 16 + b2 / 16) :: (b2 % 16 * 4 + b3 / 64) ::
      (b3 % 64) :: b64Vals rest

/-- `btoa` on byte values: base64 characters plus `=` padding. -/
def encodeBytes : List Nat → List Char
  | [] => []
  | [b] => [b64CharOf (b / 4), b64CharOf (b % 4 * 16), '=', '=']
  | [b1, b2] => [b64CharOf (b1 / 4), b64CharOf (b1 % 4 * 16 + b2 / 16),
      b64CharOf (b2 % 16 * 4), '=']
  | b1 :: b2 :: b3 :: rest =>
      b64CharOf (b1 / 4) :: b64CharOf (b1 % 4 * 16 + b2 / 16) ::
      b64CharOf (b2 % 16 * 4 + b3 / 64) :: b64CharOf (b3 % 64) ::
      encodeBytes rest

/-- Model of `btoa` on a JavaScript string of code units below 256. -/
def btoa (s : Str) : Str := encodeBytes (s.map Char.toNat)

/-- Bytes of a 6-bit value sequence; a final group of two values yields one
byte, of three values two bytes, leftover bits are discarded. -/
def decode4 : List Nat → List Nat
  | [a, b] => [a * 4 + b / 16]
  | [a, b, c] => [a * 4 + b / 16, b % 16 * 16 + c / 4]
  | a :: b :: c :: d :: rest =>
      (a * 4 + b / 16) :: (b % 16 * 16 + c / 4) :: (c % 4 * 64 + d) ::
      decode4 rest
  | _ => []

/-- Strip up to two trailing `=` characters. -/
def stripPad (t : Str) : Str :=
  match t.reverse with
  | c :: c2 :: r =>
      if c = '=' then
        (if c2 = '=' then r.reverse else (c2 :: r).reverse)
      else t
  | [c] => if c = '=' then [] else t
  | [] => t

/-- Forgiving-base64 decode to byte values; `none` models a thrown
`InvalidCharacterError`. -/
def atobBytes (s : Str) : Option (List Nat) :=
  let t := s.filter (fun c => !isB64Ws c)
  let t2 := if t.length % 4 = 0 then stripPad t else t
  if t2.length % 4 = 1 then none
  else (t2.mapM b64Val).map decode4

/-- Model of `atob`: the decoded bytes as a JavaScript binary string. -/
def atob (s : Str) : Option Str :=
  (atobBytes s).map (fun bs => bs.map Char.ofNat)

/-- JavaScript `String.prototype.split` with a single-character separator:
splits on every occurrence, and the empty string yields one empty piece. -/
def jsSplit (sep : Char) : Str → List Str
  | [] => [[]]
  | c :: rest =>
      let r := jsSplit sep rest
      if c = sep then [] :: r
      else match r with
        | h :: t => (c :: h) :: t
        | [] => [[c]]

/-! ### Route handlers -/

/-- The fixed realm of every authentication route. -/
def fakeRealm : Str := ("Fake Realm".toList)

/-- The Basic 401 response with the exact challenge header of the source. -/
def basic401 : Resp := ⟨401, some ("Basic realm=\"Fake Realm\"".toList), Body.empty⟩

/-- Handler of `GET /basic-auth/:user/:passwd`.  `Except.error` marks the
uncaught exception thrown by `atob` on malformed base64, which escapes the
handler. -/
def basicAuthHandler (user passwd : Str) (authHeader : Option Str) :
    Except Unit Resp :=
  match authHeader with
  | none => Except.ok basic401
  | some h =>
    if h.isEmpty || h.take 6 ≠ ("Basic ".toList) then Except.ok basic401
    else match atob (h.drop 6) with
      | none => Except.error ()
      | some credentials =>
        let parts := jsSplit ':' credentials
        if parts.get? 0 ≠ some user ∨ parts.get? 1 ≠ some passwd then
          Except.ok basic401
        else Except.ok (respAuthUser user)

/-- The Bearer 401 response. -/
def bearer401 : Resp := ⟨401, some ("Bearer".toList), Body.empty⟩

/-- Handler of `GET /bearer`. -/
def bearerHandler (authHeader : Option Str) : Resp :=
  match authHeader with
  | none => bearer401
  | some h =>
    if h.isEmpty || h.take 7 ≠ ("Bearer ".toList) then bearer401
    else respAuthToken (h.drop 7)

/-- Handler of `GET /digest-auth/:qop/:user/:passwd` (fixed algorithm MD5).
The nonce used for a fresh challenge, the request method and the request URI
are passed in explicitly. -/
def digestAuthQopHandler (hash : Str → Str → Str) (qop user passwd : Str)
    (authHeader : Option Str) (nonce method uri : Str) : Resp :=
  if qop ≠ ("auth".toList) ∧ qop ≠ ("auth-int".toList) then
    resp400 ("Invalid value for qop".toList)
  else
    let challenge := generateDigestChallenge fakeRealm nonce (some qop) none false
    match authHeader with
    | none => resp401 challenge
    | some h =>
      match parseDigestAuth h with
      | none => resp401 challenge
      | some authParams =>
        if checkDigestAuth hash authParams user passwd method uri (some qop)
            ("MD5".toList) then respAuthUser user
        else resp401 challenge

/-- Model of `shouldBeStale` on the stale-after route: JavaScript
`parseInt(s, 10)` as an optional integer (`none` is `NaN`). -/
def jsParseInt (s : Str) : Option Int :=
  let t := s.dropWhile (fun c => isB64Ws c || c.toNat == 11 || c.toNat == 160)
  let digitsVal : Str → Option Nat := fun r =>
    let d := r.takeWhile (fun c => 48 ≤ c.toNat && c.toNat ≤ 57)
    if d.isEmpty then none
    else some (d.foldl (fun n c => n * 10 + (c.toNat - 48)) 0)
  match t with
  | '-' :: r => (digitsVal r).map (fun n => -(n : Int))
  | '+' :: r => (digitsVal r).map (fun n => (n : Int))
  | r => (digitsVal r).map (fun n => (n : Int))

/-- The staleness decision of the five-parameter digest route. -/
def shouldBeStale (staleAfter : Str) : Bool :=
  staleAfter ≠ ("never".toList) && (jsParseInt staleAfter).isSome &&
  ((jsParseInt staleAfter).getD 0 ≤ 0)

/-- Handler of `GET /digest-auth/:qop/:user/:passwd/:algorithm/:stale_after`. -/
def digestAuthStaleHandler (hash : Str → Str → Str)
    (qop user passwd algorithm staleAfter : Str) (authHeader : Option Str)
    (nonce method uri : Str) : Resp :=
  if qop ≠ ("auth".toList) ∧ qop ≠ ("auth-int".toList) then
    resp400 ("Invalid value for qop".toList)
  else if algorithm ≠ ("MD5".toList) ∧ algorithm ≠ ("SHA-256".toList) ∧
      algorithm ≠ ("SHA-512".toList) then
    resp400 ("Invalid value for algorithm".toList)
  else
    let challenge := generateDigestChallenge fakeRealm nonce (some qop)
      (some algorithm) (shouldBeStale staleAfter)
    match authHeader with
    | none => resp401 challenge
    | some h =>
      match parseDigestAuth h with
      | none => resp401 challenge
      | some authParams =>
        if checkDigestAuth hash authParams user passwd method uri (some qop)
            algorithm then respAuthUser user
        else resp401 challenge

end HttpbinAuth

namespace HttpbinAuth

/-! ### Spec-side reference definitions and a concrete hash instance -/

/-- A concrete instance of the hash parameter (the identity on the data),
used to evaluate the digest pipeline at specific inputs. -/
def idHash : Str → Str → Str := fun _ data => data

/-- Reference definition following the spec's words (section 4.3): when
`qop = auth-int` the HA2 value hashes `method:uri:hash(entityBody)`,
otherwise it hashes `method:uri`.  Written for comparison with the source's
`digestA2`; it is not part of the code. -/
def digestHA2_spec (hash : Str → Str → Str) (algorithm : Str)
    (qop : Option Str) (method uri entityBody : Str) : Str :=
  if qop = some ("auth-int".toList) then
    hash algorithm (method ++ (":".toList) ++ uri ++ (":".toList) ++
      hash algorithm entityBody)
  else hash algorithm (method ++ (":".toList) ++ uri)

/-! ### Claim C2 -/

/-- Claim C2 counterexample: for `qop = auth-int` the HA2 value actually
computed by `checkDigestAuth` (the hash of `digestA2`) differs from the
spec's body-including formula, exhibited at the concrete hash instance
`idHash`, method GET, uri `/x`, entity body `b`. -/
theorem c2_counterexample :
    idHash ("MD5".toList) (digestA2 (some ("auth-int".toList)) ("GET".toList) ("/x".toList)) ≠
    digestHA2_spec idHash ("MD5".toList) (some ("auth-int".toList)) ("GET".toList) ("/x".toList) ("b".toList) := by
  decide

/-- Claim C2 (amended): for every hash function, algorithm and qop value
(`auth`, `auth-int` or absent), the A2 string of `checkDigestAuth` is
`method:uri`; the request entity body is never part of HA2 (the verification
has no entity-body input at all). -/
theorem c2_theorem (hash : Str → Str → Str) (algorithm : Str)
    (qop : Option Str) (method uri : Str) :
    hash algorithm (digestA2 qop method uri) =
    hash algorithm (method ++ (":".toList) ++ uri) := by
  unfold digestA2
  cases qop <;> simp

/-! ### Claim C4 -/

/-- Claim C4 counterexample: the header consisting of exactly the scheme
tag `Bearer ` (empty token) yields a 200 success with the empty token,
not the claimed 401. -/
theorem c4_counterexample :
    bearerHandler (some ("Bearer ".toList)) = respAuthToken [] ∧
    bearerHandler (some ("Bearer ".toList)) ≠ bearer401 := by
  constructor <;> decide

/-- Claim C4 (amended): every Authorization header that starts with the
seven characters `Bearer ` is accepted with a 200 response carrying the
remainder as the token — including the header `Bearer ` itself, whose
token is the empty string. -/
theorem c4_theorem (h : Str) (htake : h.take 7 = ("Bearer ".toList)) :
    bearerHandler (some h) = respAuthToken (h.drop 7) := by
  have hne : h.isEmpty = false := by
    cases h with
    | nil => simp at htake
    | cons c t => rfl
  simp [bearerHandler, hne, htake]

/-- Claim C4 witness: the amended theorem evaluated at the header `Bearer `. -/
theorem c4_witness :
    bearerHandler (some ("Bearer ".toList)) = respAuthToken (("Bearer ".toList).drop 7) :=
  c4_theorem ("Bearer ".toList) (by decide)

/-! ### Claim C6 -/

/-- Claim C6: on both digest routes, an unsupported route `qop` yields the
400 plain-text response naming `qop`, and on the five-parameter route a
supported `qop` with an unsupported `algorithm` yields the 400 response
naming `algorithm` — in each case for every Authorization header, nonce and
hash function, so before any header inspection, parsing or hashing. -/
theorem c6_theorem (hash : Str → Str → Str)
    (qop user passwd algorithm staleAfter : Str) (authHeader : Option Str)
    (nonce method uri : Str) :
    (¬(qop = ("auth".toList) ∨ qop = ("auth-int".toList)) →
      digestAuthQopHandler hash qop user passwd authHeader nonce method uri =
        resp400 ("Invalid value for qop".toList) ∧
      digestAuthStaleHandler hash qop user passwd algorithm staleAfter
          authHeader nonce method uri =
        resp400 ("Invalid value for qop".toList)) ∧
    ((qop = ("auth".toList) ∨ qop = ("auth-int".toList)) →
      ¬(algorithm = ("MD5".toList) ∨ algorithm = ("SHA-256".toList) ∨
        algorithm = ("SHA-512".toList)) →
      digestAuthStaleHandler hash qop user passwd algorithm staleAfter
          authHeader nonce method uri =
        resp400 ("Invalid value for algorithm".toList)) := by
  constructor
  · intro hq
    push_neg at hq
    constructor
    · unfold digestAuthQopHandler
      rw [if_pos ⟨hq.1, hq.2⟩]
    · unfold digestAuthStaleHandler
      rw [if_pos ⟨hq.1, hq.2⟩]
  · intro hq ha
    push_neg at ha
    have hq' : ¬(qop ≠ ("auth".toList) ∧ qop ≠ ("auth-int".toList)) := by
      rcases hq with h | h <;> simp [h]
    unfold digestAuthStaleHandler
    rw [if_neg hq', if_pos ⟨ha.1, ha.2.1, ha.2.2⟩]

/-- Claim C6 witness: route qop `bogus` on both routes, and route algorithm
`ROT13` with qop `auth`, each with a present Authorization header. -/
theorem c6_witness :
    digestAuthQopHandler idHash ("bogus".toList) ("u".toList) ("p".toList)
        (some ("Digest username=\"u\"".toList)) ("n".toList) ("GET".toList) ("/x".toList) =
      resp400 ("Invalid value for qop".toList) ∧
    digestAuthStaleHandler idHash ("auth".toList) ("u".toList) ("p".toList)
        ("ROT13".toList) ("0".toList)
        (some ("Digest username=\"u\"".toList)) ("n".toList) ("GET".toList) ("/x".toList) =
      resp400 ("Invalid value for algorithm".toList) := by
  refine ⟨((c6_theorem idHash ("bogus".toList) ("u".toList) ("p".toList)
    ("MD5".toList) ("0".toList)
    (some ("Digest username=\"u\"".toList)) ("n".toList) ("GET".toList) ("/x".toList)).1
    (by decide)).1, ?_⟩
  exact (c6_theorem idHash ("auth".toList) ("u".toList) ("p".toList)
    ("ROT13".toList) ("0".toList)
    (some ("Digest username=\"u\"".toList)) ("n".toList) ("GET".toList) ("/x".toList)).2
    (by decide) (by decide)

/-! ### Claim C8 -/

/-- Claim C8 counterexample: the header `Digest !!!` starts with the scheme
tag but contains no well-formed pair, yet the parser returns the empty map,
not `null`. -/
theorem c8_counterexample :
    parseDigestAuth ("Digest !!!".toList) = some [] ∧
    parseDigestAuth ("Digest !!!".toList) ≠ none := by
  constructor <;> decide

/-- Claim C8 (amended): the parser returns `null` exactly when the header
does not start with `Digest `; with the scheme tag but no matching pair it
returns the empty map, and a header in which only some segments are
well-formed pairs yields exactly those pairs. -/
theorem c8_theorem :
    (∀ h : Str, parseDigestAuth h = none ↔ h.take 7 ≠ ("Digest ".toList)) ∧
    parseDigestAuth ("Digest !!!".toList) = some [] ∧
    parseDigestAuth ("Digest realm=\"r\", garbage, nonce=\"n\"".toList) =
      some [(("realm".toList), ("r".toList)), (("nonce".toList), ("n".toList))] := by
  refine ⟨fun h => ?_, by decide, by decide⟩
  by_cases hp : h.take 7 = ("Digest ".toList) <;> simp [parseDigestAuth, hp]

end HttpbinAuth

namespace HttpbinAuth

/-! ### Claim C10 -/

/-- Claim C10: when the parsed credentials carry username, realm and nonce
but omit `nc` or `cnonce`, `checkDigestAuth` — even with the non-null route
`qop` — accepts exactly the legacy RFC 2069 response
`hash(HA1:nonce:HA2)`; in particular a client supplying that value
authenticates without any `nc`/`cnonce`. -/
theorem c10_theorem (hash : Str → Str → Str) (m : List (Str × Str))
    (user passwd method uri q algorithm realmVal nonceVal respVal : Str)
    (h1 : objGet m ("username".toList) = some user) (h2 : user ≠ [])
    (h3 : objGet m ("realm".toList) = some realmVal) (h4 : realmVal ≠ [])
    (h5 : objGet m ("nonce".toList) = some nonceVal) (h6 : nonceVal ≠ [])
    (h7 : objGet m ("nc".toList) = none ∨ objGet m ("cnonce".toList) = none)
    (h8 : objGet m ("response".toList) = some respVal) :
    checkDigestAuth hash m user passwd method uri (some q) algorithm = true ↔
      respVal = hash algorithm
        (hash algorithm (user ++ (":".toList) ++ realmVal ++ (":".toList) ++ passwd) ++
         (":".toList) ++ nonceVal ++ (":".toList) ++
         hash algorithm (digestA2 (some q) method uri)) := by
  have hu : user.isEmpty = false := by
    cases user with
    | nil => exact absurd rfl h2
    | cons c t => rfl
  have hr : realmVal.isEmpty = false := by
    cases realmVal with
    | nil => exact absurd rfl h4
    | cons c t => rfl
  have hn : nonceVal.isEmpty = false := by
    cases nonceVal with
    | nil => exact absurd rfl h6
    | cons c t => rfl
  have hcond : (qopTruthy (some q) && !strFalsy (objGet m ("nc".toList)) &&
      !strFalsy (objGet m ("cnonce".toList))) = false := by
    rcases h7 with h | h
    · rw [h]; simp [strFalsy]
    · rw [h]; simp [strFalsy]
  unfold checkDigestAuth
  rw [h1, h3, h5, h8]
  rw [if_neg (show ¬((strFalsy (some user) || strFalsy (some realmVal) ||
    strFalsy (some nonceVal)) = true) by simp [strFalsy, hu, hr, hn])]
  rw [if_neg (show ¬(some user ≠ some user) by simp)]
  rw [hcond]
  simp

/-- Claim C10 witness: with the identity hash instance, credentials carrying
only username, realm, nonce and the legacy-form response authenticate. -/
theorem c10_witness :
    checkDigestAuth idHash
      [(("username".toList), ("u".toList)), (("realm".toList), ("r".toList)),
       (("nonce".toList), ("n".toList)),
       (("response".toList), ("u:r:p:n:GET:/x".toList))]
      ("u".toList) ("p".toList) ("GET".toList) ("/x".toList)
      (some ("auth".toList)) ("MD5".toList) = true :=
  (c10_theorem idHash
    [(("username".toList), ("u".toList)), (("realm".toList), ("r".toList)),
     (("nonce".toList), ("n".toList)),
     (("response".toList), ("u:r:p:n:GET:/x".toList))]
    ("u".toList) ("p".toList) ("GET".toList) ("/x".toList) ("auth".toList)
    ("MD5".toList) ("r".toList) ("n".toList) ("u:r:p:n:GET:/x".toList)
    (by decide) (by decide) (by decide) (by decide) (by decide) (by decide)
    (Or.inl (by decide)) (by decide)).mpr (by decide)

end HttpbinAuth

namespace HttpbinAuth

/-! ### Scanner lemmas for symbolic quoted values

The challenge strings contain two symbolic quoted spans (the realm and the
nonce); the following lemmas let the scan step over an arbitrary quote-free
span, after which the remaining concrete characters compute. -/

/-- A list containing `c` after an arbitrary span does contain `c`. -/
theorem contains_append_cons (v rest : Str) (c : Char) :
    (v ++ c :: rest).contains c = true := by
  induction v with
  | nil => simp [List.contains]
  | cons a t ih => simp_all [List.contains]

/-- Scanning a quoted value: a quote-free span followed by the closing quote
emits the pair and resumes skipping. -/
theorem scanStep_quoted_run (k acc v rest : Str) (hv : ¬('"' ∈ v)) :
    scanStep (ScanState.quoted k acc) (v ++ ('"' :: rest)) =
      (k, acc ++ v) :: scanStep ScanState.skip rest := by
  induction v generalizing acc with
  | nil => simp [scanStep]
  | cons a t ih =>
      have ha : a ≠ '"' := by rintro rfl; exact hv (by simp)
      simp only [List.cons_append, scanStep, List.append_eq, if_neg ha]
      rw [ih (acc ++ [a]) (by intro h; exact hv (by simp [h]))]
      simp

set_option maxHeartbeats 2000000 in
/-- Parsing a built challenge recovers the pairs in serialization order:
`realm`, `nonce`, then the optional quoted `qop`, the optional bare
`algorithm`, and `stale=true` when the stale flag is set — with absent
optional fields contributing nothing. -/
theorem parse_generateDigestChallenge (realm nonce : Str)
    (qop algorithm : Option Str) (stale : Bool)
    (hR : ¬('"' ∈ realm)) (hN : ¬('"' ∈ nonce))
    (hq : qop = none ∨ qop = some ("auth".toList) ∨
      qop = some ("auth-int".toList))
    (ha : algorithm = none ∨ algorithm = some ("MD5".toList) ∨
      algorithm = some ("SHA-256".toList) ∨
      algorithm = some ("SHA-512".toList)) :
    parseDigestAuth (generateDigestChallenge realm nonce qop algorithm stale) =
      some ((([(("realm".toList), realm), (("nonce".toList), nonce)] ++
        (match qop with | some q => [(("qop".toList), q)] | none => [])) ++
        (match algorithm with
          | some a => [(("algorithm".toList), a)] | none => [])) ++
        (if stale then [(("stale".toList), ("true".toList))] else [])) := by
  rcases hq with rfl | rfl | rfl <;> rcases ha with rfl | rfl | rfl | rfl <;>
    cases stale <;>
    simp [parseDigestAuth, generateDigestChallenge, scanPairs, scanStep,
      isWordChar, scanStep_quoted_run, hR, hN, objOfPairs, objUpsert,
      List.take_append_eq_append_take, List.drop_append_eq_append_drop]

end HttpbinAuth

namespace HttpbinAuth

/-! ### Claim C5 -/

set_option maxHeartbeats 2000000 in
/-- Claim C5: for every challenge-parameter combination — a realm without
quote characters, optional qop in auth / auth-int, optional algorithm in
MD5 / SHA-256 / SHA-512, and the stale flag — and every nonce drawn from the
nonce generator's alphabet, parsing the built WWW-Authenticate value with
the Digest header parser recovers exactly the realm, nonce, qop, algorithm
and stale values, absent optional fields staying absent. -/
theorem c5_theorem (realm nonce : Str) (qop algorithm : Option Str)
    (stale : Bool)
    (hR : ¬('"' ∈ realm)) (hN : ∀ c ∈ nonce, isNonceChar c = true)
    (hq : qop = none ∨ qop = some ("auth".toList) ∨
      qop = some ("auth-int".toList))
    (ha : algorithm = none ∨ algorithm = some ("MD5".toList) ∨
      algorithm = some ("SHA-256".toList) ∨
      algorithm = some ("SHA-512".toList)) :
    ∃ m, parseDigestAuth
        (generateDigestChallenge realm nonce qop algorithm stale) = some m ∧
      objGet m ("realm".toList) = some realm ∧
      objGet m ("nonce".toList) = some nonce ∧
      objGet m ("qop".toList) = qop ∧
      objGet m ("algorithm".toList) = algorithm ∧
      objGet m ("stale".toList) =
        (if stale then some ("true".toList) else none) := by
  have hN' : ¬('"' ∈ nonce) := by
    intro h
    have := hN '"' h
    simp [isNonceChar] at this
  refine ⟨_, parse_generateDigestChallenge realm nonce qop algorithm stale
    hR hN' hq ha, ?_, ?_, ?_, ?_, ?_⟩ <;>
    (rcases hq with rfl | rfl | rfl <;> rcases ha with rfl | rfl | rfl | rfl <;>
      cases stale <;> simp [objGet])

/-- Claim C5 witness: the round-trip at realm `Fake Realm`, nonce `abc`,
qop `auth`, algorithm `MD5` and the stale flag set. -/
theorem c5_witness :
    ∃ m, parseDigestAuth (generateDigestChallenge ("Fake Realm".toList)
        ("abc".toList) (some ("auth".toList)) (some ("MD5".toList)) true) =
        some m ∧
      objGet m ("realm".toList) = some ("Fake Realm".toList) ∧
      objGet m ("nonce".toList) = some ("abc".toList) ∧
      objGet m ("qop".toList) = some ("auth".toList) ∧
      objGet m ("algorithm".toList) = some ("MD5".toList) ∧
      objGet m ("stale".toList) =
        (if true then some ("true".toList) else none) :=
  c5_theorem ("Fake Realm".toList) ("abc".toList) (some ("auth".toList))
    (some ("MD5".toList)) true (by decide) (by decide)
    (Or.inr (Or.inl rfl)) (Or.inr (Or.inl rfl))

end HttpbinAuth

namespace HttpbinAuth

/-! ### Claim C3 -/

/-- Claim C3 counterexample: a client that computed its HA1 over the realm
`Evil` — not the server realm `Fake Realm` — and put `realm="Evil"` in its
Authorization header authenticates with 200 on the MD5 digest route,
because the verification recomputes the response from the client-supplied
realm (shown at the identity hash instance and the legacy response form). -/
theorem c3_counterexample :
    digestAuthQopHandler idHash ("auth".toList) ("foo".toList) ("bar".toList)
      (some (("Digest username=\"foo\", realm=\"Evil\", nonce=\"n\", " ++
        "response=\"foo:Evil:bar:n:GET:/d\"").toList))
      ("x".toList) ("GET".toList) ("/d".toList) =
      respAuthUser ("foo".toList) ∧
    ("Evil".toList) ≠ fakeRealm := by
  constructor <;> decide

/-- Claim C3 (amended): the expected response is recomputed from the realm
supplied by the client in the Authorization header, not the server-known
realm of the route: with username, realm, nonce, nc and cnonce all present,
verification succeeds exactly when the supplied response matches the chain
built over the client-supplied realm value, whatever that value is. -/
theorem c3_theorem (hash : Str → Str → Str) (m : List (Str × Str))
    (user passwd method uri q algorithm realmVal nonceVal ncVal
      cnonceVal respVal : Str)
    (h1 : objGet m ("username".toList) = some user) (h2 : user ≠ [])
    (h3 : objGet m ("realm".toList) = some realmVal) (h4 : realmVal ≠ [])
    (h5 : objGet m ("nonce".toList) = some nonceVal) (h6 : nonceVal ≠ [])
    (hq : q ≠ [])
    (hnc : objGet m ("nc".toList) = some ncVal) (hnc2 : ncVal ≠ [])
    (hcn : objGet m ("cnonce".toList) = some cnonceVal) (hcn2 : cnonceVal ≠ [])
    (h8 : objGet m ("response".toList) = some respVal) :
    checkDigestAuth hash m user passwd method uri (some q) algorithm = true ↔
      respVal = hash algorithm
        (hash algorithm (user ++ (":".toList) ++ realmVal ++ (":".toList) ++
          passwd) ++ (":".toList) ++ nonceVal ++ (":".toList) ++ ncVal ++
          (":".toList) ++ cnonceVal ++ (":".toList) ++ q ++ (":".toList) ++
          hash algorithm (digestA2 (some q) method uri)) := by
  have hu : user.isEmpty = false := by
    cases user with
    | nil => exact absurd rfl h2
    | cons c t => rfl
  have hr : realmVal.isEmpty = false := by
    cases realmVal with
    | nil => exact absurd rfl h4
    | cons c t => rfl
  have hn : nonceVal.isEmpty = false := by
    cases nonceVal with
    | nil => exact absurd rfl h6
    | cons c t => rfl
  have hqe : q.isEmpty = false := by
    cases q with
    | nil => exact absurd rfl hq
    | cons c t => rfl
  have hnce : ncVal.isEmpty = false := by
    cases ncVal with
    | nil => exact absurd rfl hnc2
    | cons c t => rfl
  have hcne : cnonceVal.isEmpty = false := by
    cases cnonceVal with
    | nil => exact absurd rfl hcn2
    | cons c t => rfl
  unfold checkDigestAuth
  rw [h1, h3, h5, h8, hnc, hcn]
  rw [if_neg (show ¬((strFalsy (some user) || strFalsy (some realmVal) ||
    strFalsy (some nonceVal)) = true) by simp [strFalsy, hu, hr, hn])]
  rw [if_neg (show ¬(some user ≠ some user) by simp)]
  rw [show (qopTruthy (some q) && !strFalsy (some ncVal) &&
    !strFalsy (some cnonceVal)) = true by
      simp [qopTruthy, strFalsy, hqe, hnce, hcne]]
  simp

/-- Claim C3 witness: the amended theorem evaluated at the identity hash
instance with client realm `Evil` and the matching full-form response. -/
theorem c3_witness :
    checkDigestAuth idHash
      [(("username".toList), ("u".toList)), (("realm".toList), ("Evil".toList)),
       (("nonce".toList), ("n".toList)), (("nc".toList), ("00000001".toList)),
       (("cnonce".toList), ("cn".toList)),
       (("response".toList), ("u:Evil:p:n:00000001:cn:auth:GET:/x".toList))]
      ("u".toList) ("p".toList) ("GET".toList) ("/x".toList)
      (some ("auth".toList)) ("MD5".toList) = true :=
  (c3_theorem idHash
    [(("username".toList), ("u".toList)), (("realm".toList), ("Evil".toList)),
     (("nonce".toList), ("n".toList)), (("nc".toList), ("00000001".toList)),
     (("cnonce".toList), ("cn".toList)),
     (("response".toList), ("u:Evil:p:n:00000001:cn:auth:GET:/x".toList))]
    ("u".toList) ("p".toList) ("GET".toList) ("/x".toList) ("auth".toList)
    ("MD5".toList) ("Evil".toList) ("n".toList) ("00000001".toList)
    ("cn".toList) ("u:Evil:p:n:00000001:cn:auth:GET:/x".toList)
    (by decide) (by decide) (by decide) (by decide) (by decide) (by decide)
    (by decide) (by decide) (by decide) (by decide) (by decide)
    (by decide)).mpr (by decide)

end HttpbinAuth


namespace HttpbinAuth

/-! ### Claim C7 -/

/-- Every 401 from the stale-after digest route carries the challenge built
with the route's staleness decision, and its route qop and algorithm are
among the supported values (otherwise the route answers 400 or 200). -/
theorem digestAuthStaleHandler_401_eq (hash : Str → Str → Str)
    (qop user passwd algorithm staleAfter : Str) (authHeader : Option Str)
    (nonce method uri : Str)
    (hst : (digestAuthStaleHandler hash qop user passwd algorithm staleAfter
      authHeader nonce method uri).status = 401) :
    digestAuthStaleHandler hash qop user passwd algorithm staleAfter
        authHeader nonce method uri =
      resp401 (generateDigestChallenge fakeRealm nonce (some qop)
        (some algorithm) (shouldBeStale staleAfter)) ∧
    (qop = ("auth".toList) ∨ qop = ("auth-int".toList)) ∧
    (algorithm = ("MD5".toList) ∨ algorithm = ("SHA-256".toList) ∨
      algorithm = ("SHA-512".toList)) := by
  by_cases h1 : qop ≠ ("auth".toList) ∧ qop ≠ ("auth-int".toList)
  · exfalso
    unfold digestAuthStaleHandler at hst
    rw [if_pos h1] at hst
    simp [resp400] at hst
  · by_cases h2 : algorithm ≠ ("MD5".toList) ∧
      algorithm ≠ ("SHA-256".toList) ∧ algorithm ≠ ("SHA-512".toList)
    · exfalso
      unfold digestAuthStaleHandler at hst
      rw [if_neg h1, if_pos h2] at hst
      simp [resp400] at hst
    · refine ⟨?_, by tauto, by tauto⟩
      unfold digestAuthStaleHandler at hst ⊢
      rw [if_neg h1, if_neg h2] at hst ⊢
      cases authHeader with
      | none => rfl
      | some h =>
        rcases hp : parseDigestAuth h with _ | params
        · simp only [hp]
        · simp only [hp] at hst ⊢
          by_cases hc : checkDigestAuth hash params user passwd method uri
              (some qop) algorithm = true
          · rw [if_pos hc] at hst
            simp [respAuthUser] at hst
          · rw [if_neg hc]

end HttpbinAuth

namespace HttpbinAuth

/-- Claim C7: on the stale-after digest route, when the stale_after route
parameter is a numeric string parsing to a value at most 0 (such as `0`),
every 401 response carries a challenge whose parsed parameters include
`stale=true`; when it is the literal `never`, no 401 response ever carries
a `stale` parameter. -/
theorem c7_theorem (hash : Str → Str → Str)
    (qop user passwd algorithm staleAfter : Str) (authHeader : Option Str)
    (nonce method uri : Str)
    (hN : ∀ c ∈ nonce, isNonceChar c = true) :
    (staleAfter ≠ ("never".toList) →
      (∃ z, jsParseInt staleAfter = some z ∧ z ≤ 0) →
      (digestAuthStaleHandler hash qop user passwd algorithm staleAfter
        authHeader nonce method uri).status = 401 →
      ∃ ch m, (digestAuthStaleHandler hash qop user passwd algorithm staleAfter
          authHeader nonce method uri).wwwAuthenticate = some ch ∧
        parseDigestAuth ch = some m ∧
        objGet m ("stale".toList) = some ("true".toList)) ∧
    (staleAfter = ("never".toList) →
      (digestAuthStaleHandler hash qop user passwd algorithm staleAfter
        authHeader nonce method uri).status = 401 →
      ∃ ch m, (digestAuthStaleHandler hash qop user passwd algorithm staleAfter
          authHeader nonce method uri).wwwAuthenticate = some ch ∧
        parseDigestAuth ch = some m ∧
        objGet m ("stale".toList) = none) := by
  have hN' : ¬('"' ∈ nonce) := by
    intro h
    have := hN '"' h
    simp [isNonceChar] at this
  constructor
  · intro hnev hz hst
    obtain ⟨heq, hqv, hav⟩ := digestAuthStaleHandler_401_eq hash qop user
      passwd algorithm staleAfter authHeader nonce method uri hst
    have hsb : shouldBeStale staleAfter = true := by
      obtain ⟨z, hz1, hz2⟩ := hz
      unfold shouldBeStale
      rw [hz1]
      simp [hz2]
      exact hnev
    rw [hsb] at heq
    have hq' : some qop = none ∨ some qop = some ("auth".toList) ∨
        some qop = some ("auth-int".toList) := by
      rcases hqv with rfl | rfl
      · exact Or.inr (Or.inl rfl)
      · exact Or.inr (Or.inr rfl)
    have ha' : some algorithm = none ∨ some algorithm = some ("MD5".toList) ∨
        some algorithm = some ("SHA-256".toList) ∨
        some algorithm = some ("SHA-512".toList) := by
      rcases hav with rfl | rfl | rfl
      · exact Or.inr (Or.inl rfl)
      · exact Or.inr (Or.inr (Or.inl rfl))
      · exact Or.inr (Or.inr (Or.inr rfl))
    refine ⟨_, _, by rw [heq]; rfl,
      parse_generateDigestChallenge fakeRealm nonce (some qop)
        (some algorithm) true (by decide) hN' hq' ha', ?_⟩
    rcases hqv with rfl | rfl <;> rcases hav with rfl | rfl | rfl <;>
      simp [objGet]
  · intro hnev hst
    obtain ⟨heq, hqv, hav⟩ := digestAuthStaleHandler_401_eq hash qop user
      passwd algorithm staleAfter authHeader nonce method uri hst
    subst hnev
    have hsb : shouldBeStale ("never".toList) = false := by decide
    rw [hsb] at heq
    have hq' : some qop = none ∨ some qop = some ("auth".toList) ∨
        some qop = some ("auth-int".toList) := by
      rcases hqv with rfl | rfl
      · exact Or.inr (Or.inl rfl)
      · exact Or.inr (Or.inr rfl)
    have ha' : some algorithm = none ∨ some algorithm = some ("MD5".toList) ∨
        some algorithm = some ("SHA-256".toList) ∨
        some algorithm = some ("SHA-512".toList) := by
      rcases hav with rfl | rfl | rfl
      · exact Or.inr (Or.inl rfl)
      · exact Or.inr (Or.inr (Or.inl rfl))
      · exact Or.inr (Or.inr (Or.inr rfl))
    refine ⟨_, _, by rw [heq]; rfl,
      parse_generateDigestChallenge fakeRealm nonce (some qop)
        (some algorithm) false (by decide) hN' hq' ha', ?_⟩
    rcases hqv with rfl | rfl <;> rcases hav with rfl | rfl | rfl <;>
      simp [objGet]

/-- Claim C7 witness: stale_after `0` and a missing Authorization header. -/
theorem c7_witness :
    ∃ ch m, (digestAuthStaleHandler idHash ("auth".toList) ("u".toList)
        ("p".toList) ("MD5".toList) ("0".toList) none ("abc".toList)
        ("GET".toList) ("/x".toList)).wwwAuthenticate = some ch ∧
      parseDigestAuth ch = some m ∧
      objGet m ("stale".toList) = some ("true".toList) :=
  (c7_theorem idHash ("auth".toList) ("u".toList) ("p".toList)
    ("MD5".toList) ("0".toList) none ("abc".toList) ("GET".toList)
    ("/x".toList) (by decide)).1 (by decide) ⟨0, by decide, by decide⟩
    (by decide)

end HttpbinAuth


namespace HttpbinAuth
open ScanState

/-! ### Base64 lemmas: the decode of an encode recovers the bytes -/

/-- Alphabet characters are not whitespace, not padding, and decode to
their index. -/
theorem alphabet_props : ∀ m, m < 64 →
    (isB64Ws (b64AlphabetChars.getD m 'A') = false ∧
     b64AlphabetChars.getD m 'A' ≠ '=' ∧
     b64Val (b64AlphabetChars.getD m 'A') = some m) := by decide

theorem isB64Ws_b64CharOf (n : Nat) : isB64Ws (b64CharOf n) = false := by
  unfold b64CharOf
  exact (alphabet_props (n % 64) (Nat.mod_lt n (by norm_num))).1

theorem b64CharOf_ne_pad (n : Nat) : b64CharOf n ≠ '=' := by
  unfold b64CharOf
  exact (alphabet_props (n % 64) (Nat.mod_lt n (by norm_num))).2.1

theorem b64Val_b64CharOf (n : Nat) (h : n < 64) : b64Val (b64CharOf n) = some n := by
  unfold b64CharOf
  rw [Nat.mod_eq_of_lt h]
  exact (alphabet_props n h).2.2

theorem encodeBytes_mem_ws (bs : List Nat) :
    ∀ c ∈ encodeBytes bs, isB64Ws c = false := by
  induction bs using encodeBytes.induct with
  | case1 => intro c hc; simp [encodeBytes] at hc
  | case2 b => intro c hc
               simp [encodeBytes] at hc
               rcases hc with rfl | rfl | rfl | rfl <;>
                 first | exact isB64Ws_b64CharOf _ | decide
  | case3 b1 b2 => intro c hc
                   simp [encodeBytes] at hc
                   rcases hc with rfl | rfl | rfl | rfl <;>
                     first | exact isB64Ws_b64CharOf _ | decide
  | case4 b1 b2 b3 rest ih =>
      intro c hc
      simp [encodeBytes] at hc
      rcases hc with rfl | rfl | rfl | rfl | hmem
      · exact isB64Ws_b64CharOf _
      · exact isB64Ws_b64CharOf _
      · exact isB64Ws_b64CharOf _
      · exact isB64Ws_b64CharOf _
      · exact ih c hmem

theorem encodeBytes_filter (bs : List Nat) :
    (encodeBytes bs).filter (fun c => !isB64Ws c) = encodeBytes bs := by
  rw [List.filter_eq_self]
  intro c hc
  simp [encodeBytes_mem_ws bs c hc]

theorem encodeBytes_len (bs : List Nat) :
    (encodeBytes bs).length % 4 = 0 := by
  induction bs using encodeBytes.induct with
  | case1 => rfl
  | case2 b => simp [encodeBytes]
  | case3 b1 b2 => simp [encodeBytes]
  | case4 b1 b2 b3 rest ih => simp [encodeBytes]; omega

end HttpbinAuth

namespace HttpbinAuth

theorem stripPad_append (l r : Str) (hr : 2 ≤ r.length) :
    stripPad (l ++ r) = l ++ stripPad r := by
  rcases hrev : r.reverse with _ | ⟨c, _ | ⟨c2, r'⟩⟩
  · have : r = [] := by simpa using congrArg List.reverse hrev
    subst this; simp at hr
  · have : r = [c] := by
      have := congrArg List.reverse hrev
      simpa using this
    subst this; simp at hr
  · have hr2 : (l ++ r).reverse = c :: c2 :: (r' ++ l.reverse) := by
      simp [List.reverse_append, hrev]
    unfold stripPad
    rw [hr2, hrev]
    by_cases h1 : c = '='
    · by_cases h2 : c2 = '='
      · simp [h1, h2, List.reverse_append]
      · simp [h1, h2, List.reverse_append]
    · simp [h1]

theorem encodeBytes_len_pos (bs : List Nat) (h : bs ≠ []) :
    4 ≤ (encodeBytes bs).length := by
  rcases bs with _ | ⟨a, _ | ⟨b, _ | ⟨c, r⟩⟩⟩
  · exact absurd rfl h
  · simp [encodeBytes]
  · simp [encodeBytes]
  · simp [encodeBytes]

theorem stripPad_encodeBytes (bs : List Nat) :
    stripPad (encodeBytes bs) = (b64Vals bs).map b64CharOf := by
  induction bs using encodeBytes.induct with
  | case1 => rfl
  | case2 b =>
      show stripPad [b64CharOf (b / 4), b64CharOf (b % 4 * 16), '=', '='] = _
      unfold stripPad
      simp [b64Vals]
  | case3 b1 b2 =>
      show stripPad [b64CharOf (b1 / 4), b64CharOf (b1 % 4 * 16 + b2 / 16),
        b64CharOf (b2 % 16 * 4), '='] = _
      unfold stripPad
      simp [b64Vals, b64CharOf_ne_pad]
  | case4 b1 b2 b3 rest ih =>
      by_cases hrest : rest = []
      · subst hrest
        show stripPad [b64CharOf (b1 / 4), b64CharOf (b1 % 4 * 16 + b2 / 16),
          b64CharOf (b2 % 16 * 4 + b3 / 64), b64CharOf (b3 % 64)] = _
        unfold stripPad
        simp [b64Vals, b64CharOf_ne_pad, encodeBytes]
      · show stripPad ([b64CharOf (b1 / 4), b64CharOf (b1 % 4 * 16 + b2 / 16),
          b64CharOf (b2 % 16 * 4 + b3 / 64), b64CharOf (b3 % 64)] ++
          encodeBytes rest) = _
        rw [stripPad_append _ _ (le_trans (by norm_num)
          (encodeBytes_len_pos rest hrest)), ih]
        simp [b64Vals]

end HttpbinAuth

namespace HttpbinAuth

theorem b64Vals_lt (bs : List Nat) (h : ∀ b ∈ bs, b < 256) :
    ∀ v ∈ b64Vals bs, v < 64 := by
  induction bs using b64Vals.induct with
  | case1 => intro v hv; simp [b64Vals] at hv
  | case2 b =>
      intro v hv
      have hb := h b (by simp)
      simp [b64Vals] at hv
      rcases hv with rfl | rfl <;> omega
  | case3 b1 b2 =>
      intro v hv
      have h1 := h b1 (by simp)
      have h2 := h b2 (by simp)
      simp [b64Vals] at hv
      rcases hv with rfl | rfl | rfl <;> omega
  | case4 b1 b2 b3 rest ih =>
      intro v hv
      have h1 := h b1 (by simp)
      have h2 := h b2 (by simp)
      have h3 := h b3 (by simp)
      simp [b64Vals] at hv
      rcases hv with rfl | rfl | rfl | rfl | hmem
      · omega
      · omega
      · omega
      · omega
      · exact ih (fun b hb => h b (by simp [hb])) v hmem

theorem b64Vals_len (bs : List Nat) : (b64Vals bs).length % 4 ≠ 1 := by
  induction bs using b64Vals.induct with
  | case1 => simp [b64Vals]
  | case2 b => simp [b64Vals]
  | case3 b1 b2 => simp [b64Vals]
  | case4 b1 b2 b3 rest ih => simp [b64Vals] at ih ⊢; omega

theorem mapM_b64Val_map (vs : List Nat) (h : ∀ v ∈ vs, v < 64) :
    (vs.map b64CharOf).mapM b64Val = some vs := by
  induction vs with
  | nil => rfl
  | cons v t ih =>
      have hv := h v (by simp)
      simp only [List.map_cons, List.mapM_cons, b64Val_b64CharOf v hv,
        ih (fun x hx => h x (by simp [hx]))]
      rfl

theorem decode4_b64Vals (bs : List Nat) (h : ∀ b ∈ bs, b < 256) :
    decode4 (b64Vals bs) = bs := by
  induction bs using b64Vals.induct with
  | case1 => rfl
  | case2 b =>
      have hb := h b (by simp)
      simp [b64Vals, decode4]
      omega
  | case3 b1 b2 =>
      have h1 := h b1 (by simp)
      have h2 := h b2 (by simp)
      simp [b64Vals, decode4]
      constructor <;> omega
  | case4 b1 b2 b3 rest ih =>
      have h1 := h b1 (by simp)
      have h2 := h b2 (by simp)
      have h3 := h b3 (by simp)
      simp [b64Vals, decode4, ih (fun b hb => h b (by simp [hb]))]
      refine ⟨by omega, by omega, by omega⟩

theorem atobBytes_encodeBytes (bs : List Nat) (h : ∀ b ∈ bs, b < 256) :
    atobBytes (encodeBytes bs) = some bs := by
  unfold atobBytes
  rw [encodeBytes_filter]
  dsimp only
  rw [if_pos (encodeBytes_len bs), stripPad_encodeBytes]
  rw [if_neg (by simpa using b64Vals_len bs)]
  rw [mapM_b64Val_map (b64Vals bs) (b64Vals_lt bs h)]
  simp [decode4_b64Vals bs h]

theorem atob_btoa (s : Str) (h : ∀ c ∈ s, c.toNat < 256) :
    atob (btoa s) = some s := by
  unfold atob btoa
  rw [atobBytes_encodeBytes (s.map Char.toNat)
    (by intro b hb; simp at hb; obtain ⟨c, hc, rfl⟩ := hb; exact h c hc)]
  show some ((s.map Char.toNat).map Char.ofNat) = some s
  rw [List.map_map]
  congr 1
  induction s with
  | nil => rfl
  | cons c t ih =>
      simp only [List.map_cons, Function.comp_apply, Char.ofNat_toNat,
        List.cons.injEq, true_and]
      exact ih fun x hx => h x (by simp [hx])

end HttpbinAuth

namespace HttpbinAuth

theorem jsSplit_sep_free (sep : Char) (l : Str) (hl : ¬(sep ∈ l)) :
    jsSplit sep l = [l] := by
  induction l with
  | nil => rfl
  | cons c t ih =>
      have hc : c ≠ sep := by rintro rfl; exact hl (by simp)
      simp only [jsSplit, if_neg hc, ih (fun hm => hl (by simp [hm]))]

theorem jsSplit_append_sep (sep : Char) (l r : Str) (hl : ¬(sep ∈ l)) :
    jsSplit sep (l ++ sep :: r) = l :: jsSplit sep r := by
  induction l with
  | nil => simp [jsSplit]
  | cons c t ih =>
      have hc : c ≠ sep := by rintro rfl; exact hl (by simp)
      simp only [List.cons_append, jsSplit, List.append_eq, if_neg hc,
        ih (fun hm => hl (by simp [hm]))]

/-- Claim C1 (amended): Basic auth succeeds with 200 for every pair whose
user and password are free of `:` (the decoded credential is split on every
colon and only the first two segments are compared, so a password containing
`:` can never match); any request whose decoded credential does not split
into exactly the expected first two segments gets 401 with the exact
challenge header. -/
theorem c1_theorem (user passwd : Str)
    (hu2 : ∀ c ∈ user, c.toNat < 256) (hp2 : ∀ c ∈ passwd, c.toNat < 256)
    (hu : ¬(':' ∈ user)) (hp : ¬(':' ∈ passwd)) :
    basicAuthHandler user passwd
      (some (("Basic ".toList) ++ btoa (user ++ (":".toList) ++ passwd))) =
      Except.ok (respAuthUser user) ∧
    (∀ h cred : Str, h.take 6 = ("Basic ".toList) →
      atob (h.drop 6) = some cred →
      ¬((jsSplit ':' cred).get? 0 = some user ∧
        (jsSplit ':' cred).get? 1 = some passwd) →
      basicAuthHandler user passwd (some h) = Except.ok basic401) := by
  constructor
  · have hbytes : ∀ c ∈ user ++ (":".toList) ++ passwd, c.toNat < 256 := by
      intro c hc
      rcases List.mem_append.mp hc with hc1 | hc2
      · rcases List.mem_append.mp hc1 with hm | hm
        · exact hu2 c hm
        · have hm2 : c = ':' := by simpa using hm
          rw [hm2]; decide
      · exact hp2 c hc2
    have hdecode := atob_btoa (user ++ (":".toList) ++ passwd) hbytes
    unfold basicAuthHandler
    dsimp only
    rw [if_neg (show ¬(((("Basic ".toList) ++
        btoa (user ++ (":".toList) ++ passwd)).isEmpty ||
        decide ((("Basic ".toList) ++
          btoa (user ++ (":".toList) ++ passwd)).take 6 ≠
          ("Basic ".toList))) = true) by
      simp [List.take_left' (show (("Basic ".toList)).length = 6 by decide)])]
    rw [show (("Basic ".toList) ++
        btoa (user ++ (":".toList) ++ passwd)).drop 6 =
        btoa (user ++ (":".toList) ++ passwd) from
      List.drop_left' (show (("Basic ".toList)).length = 6 by decide)]
    rw [hdecode]
    simp [jsSplit_append_sep ':' user passwd hu, jsSplit_sep_free ':' passwd hp]
  · intro h cred h6 hcred hne
    have hine : h.isEmpty = false := by
      cases h with
      | nil => simp at h6
      | cons c t => rfl
    unfold basicAuthHandler
    dsimp only
    rw [if_neg (show ¬((h.isEmpty ||
        decide (h.take 6 ≠ ("Basic ".toList))) = true) by simp [hine, h6])]
    rw [hcred]
    show (if (jsSplit ':' cred).get? 0 ≠ some user ∨
        (jsSplit ':' cred).get? 1 ≠ some passwd then Except.ok basic401
      else Except.ok (respAuthUser user)) = Except.ok basic401
    rw [if_pos (show (jsSplit ':' cred).get? 0 ≠ some user ∨
        (jsSplit ':' cred).get? 1 ≠ some passwd by tauto)]

end HttpbinAuth

namespace HttpbinAuth

instance : DecidableEq (Except Unit Resp) := fun a b =>
  match a, b with
  | Except.ok x, Except.ok y => decidable_of_iff (x = y) (by simp)
  | Except.error x, Except.error y => decidable_of_iff (x = y) (by simp)
  | Except.ok _, Except.error _ => isFalse (by simp)
  | Except.error _, Except.ok _ => isFalse (by simp)

/-- Claim C1 counterexample: user `u` with password `a:b` — the correctly
base64-encoded credential `u:a:b` is rejected with 401, not accepted with
200, because the handler splits on every colon. -/
theorem c1_counterexample :
    basicAuthHandler ("u".toList) ("a:b".toList)
      (some (("Basic ".toList) ++ btoa ("u:a:b".toList))) =
      Except.ok basic401 ∧
    basicAuthHandler ("u".toList) ("a:b".toList)
      (some (("Basic ".toList) ++ btoa ("u:a:b".toList))) ≠
      Except.ok (respAuthUser ("u".toList)) := by
  constructor <;> decide

/-- Claim C1 witness: the colon-free pair `u` / `p` authenticates. -/
theorem c1_witness :
    basicAuthHandler ("u".toList) ("p".toList)
      (some (("Basic ".toList) ++
        btoa (("u".toList) ++ (":".toList) ++ ("p".toList)))) =
      Except.ok (respAuthUser ("u".toList)) :=
  (c1_theorem ("u".toList) ("p".toList) (by decide) (by decide) (by decide)
    (by decide)).1

/-- Claim C9 (amended): for a header starting with `Basic `, the handler
returns exactly one 200-or-401 response when the base64 remainder decodes,
and the `atob` exception escapes the handler (modelled as `Except.error`)
when it does not. -/
theorem c9_theorem (user passwd h : Str)
    (h6 : h.take 6 = ("Basic ".toList)) :
    ((atob (h.drop 6)).isSome = true →
      ∃ r, basicAuthHandler user passwd (some h) = Except.ok r ∧
        (r.status = 200 ∨ r.status = 401)) ∧
    (atob (h.drop 6) = none →
      basicAuthHandler user passwd (some h) = Except.error ()) := by
  have hine : h.isEmpty = false := by
    cases h with
    | nil => simp at h6
    | cons c t => rfl
  constructor
  · intro hsome
    obtain ⟨cred, hcred⟩ := Option.isSome_iff_exists.mp hsome
    unfold basicAuthHandler
    dsimp only
    rw [if_neg (show ¬((h.isEmpty ||
        decide (h.take 6 ≠ ("Basic ".toList))) = true) by simp [hine, h6])]
    rw [hcred]
    by_cases hc : (jsSplit ':' cred).get? 0 ≠ some user ∨
        (jsSplit ':' cred).get? 1 ≠ some passwd
    · refine ⟨basic401, ?_, Or.inr rfl⟩
      show (if (jsSplit ':' cred).get? 0 ≠ some user ∨
          (jsSplit ':' cred).get? 1 ≠ some passwd then Except.ok basic401
        else Except.ok (respAuthUser user)) = Except.ok basic401
      rw [if_pos hc]
    · refine ⟨respAuthUser user, ?_, Or.inl rfl⟩
      show (if (jsSplit ':' cred).get? 0 ≠ some user ∨
          (jsSplit ':' cred).get? 1 ≠ some passwd then Except.ok basic401
        else Except.ok (respAuthUser user)) = Except.ok (respAuthUser user)
      rw [if_neg hc]
  · intro hnone
    unfold basicAuthHandler
    dsimp only
    rw [if_neg (show ¬((h.isEmpty ||
        decide (h.take 6 ≠ ("Basic ".toList))) = true) by simp [hine, h6])]
    rw [hnone]

/-- Claim C9 counterexample: the header `Basic !` (length-1 remainder is
rejected by forgiving-base64) makes `atob` throw, so the handler faults
instead of producing a 200-or-401 response. -/
theorem c9_counterexample :
    basicAuthHandler ("u".toList) ("p".toList) (some ("Basic !".toList)) =
      Except.error () := by
  decide

/-- Claim C9 witness: the header `Basic ` decodes (empty credential) and
yields exactly one 401 response. -/
theorem c9_witness :
    ∃ r, basicAuthHandler ("u".toList) ("p".toList)
        (some ("Basic ".toList)) = Except.ok r ∧
      (r.status = 200 ∨ r.status = 401) :=
  (c9_theorem ("u".toList) ("p".toList) ("Basic ".toList) (by decide)).1
    (by decide)

end HttpbinAuth
